import Mathlib

/-!
Verification development for the document-triage scripts
(gduntitlerename.py and sortGD.py).

The Python scripts are shallowly embedded below.  Python strings are Lean
Strings; Python string primitives (strip, slicing, lower) operate on code
points, so they are embedded as transparent operations on the String's
character list.  Remote calls (Drive listing / Docs fetch / OpenAI chat)
are embedded by passing their observable results in explicitly: a fetch or
response is an Except value, .error standing for any raised exception
(HttpError or otherwise) that the corresponding try/except block catches.
-/

/-! Section: Python string primitives (code-point based, as in CPython) -/

/-- Python s.strip() on a character list: drop leading and trailing
whitespace. -/
def stripChars (cs : List Char) : List Char :=
  ((cs.dropWhile Char.isWhitespace).reverse.dropWhile Char.isWhitespace).reverse

/-- Python s.strip(). -/
def pyStrip (s : String) : String := ⟨stripChars s.data⟩

/-- Python s[:n] — the first n code points of s. -/
def pyTake (s : String) (n : Nat) : String := ⟨s.data.take n⟩

/-- Python s.lower() (ASCII case folding suffices for the patterns used). -/
def pyLower (s : String) : String := ⟨s.data.map Char.toLower⟩

/-- True when the stripped string is non-empty, i.e. the string has some
non-whitespace content (Python truthiness of s.strip()). -/
def nonBlank (s : String) : Bool := pyStrip s != ""

/-! Section: Content tree (Google Docs body.content, §3 of the spec)

A structural element is a dict holding one of the keys paragraph / table /
sectionBreak (anything else is the Unknown variant).  Optional sub-fields
(elements, tableRows, tableCells, content) are Option values: none embeds
an absent key. -/

/-- One entry of paragraph.elements: an optional textRun, which in turn
optionally carries a content string.  none = no textRun key;
some none = a textRun without a content key; some (some s) = textRun
with content s. -/
abbrev ParaElem := Option (Option String)

mutual
inductive ContentNode : Type where
  | paragraph (elements : Option (List ParaElem))
  | table (tableRows : Option (List TableRow))
  | sectionBreak
  | other

inductive TableRow : Type where
  | mk (tableCells : Option (List TableCell))

inductive TableCell : Type where
  | mk (content : Option (List ContentNode))
end

/-! Section: get_first_line (gduntitlerename.py, lines 110-169) -/

/-- The first line extracted from a text run's content string:
text = content.strip(); text.split('\n')[0][:limit]. -/
def firstLine (limit : Nat) (s : String) : String :=
  ⟨((stripChars s.data).takeWhile (fun c => c != '\n')).take limit⟩

/-- Lines 126-133 (and identically 148-155): given a textRun's content,
return its first line when the stripped text is non-empty. -/
def scanText (limit : Nat) (s : String) : Option String :=
  let text := pyStrip s
  if text = "" then none
  else some ⟨(text.data.takeWhile (fun c => c != '\n')).take limit⟩

/-- Lines 125-126: elem.get('textRun') and the 'content' in text_run check. -/
def scanTextRun (limit : Nat) (pe : ParaElem) : Option String :=
  match pe with
  | some (some s) => scanText limit s
  | _ => none

/-- The inner loop over paragraph.elements (lines 124-133 / 146-155):
first element whose textRun has non-whitespace content wins. -/
def scanParaElems (limit : Nat) : List ParaElem → Option String
  | [] => none
  | pe :: rest =>
    match scanTextRun limit pe with
    | some r => some r
    | none => scanParaElems limit rest

/-- Lines 142-155: a cell_element is inspected only when it holds a
paragraph ('if paragraph in cell_element'); nested tables and every other
variant inside a cell are passed over.  The cell paragraph's elements
default to [] when absent (line 145). -/
def scanCellElem (limit : Nat) : ContentNode → Option String
  | ContentNode.paragraph es => scanParaElems limit (es.getD [])
  | _ => none

/-- The loop over a cell's content list (line 142). -/
def scanCellContent (limit : Nat) : List ContentNode → Option String
  | [] => none
  | e :: rest =>
    match scanCellElem limit e with
    | some r => some r
    | none => scanCellContent limit rest

/-- Line 141: cell.get('content', []). -/
def scanCell (limit : Nat) : TableCell → Option String
  | TableCell.mk content => scanCellContent limit (content.getD [])

/-- The loop over a row's cells (line 140). -/
def scanCells (limit : Nat) : List TableCell → Option String
  | [] => none
  | c :: rest =>
    match scanCell limit c with
    | some r => some r
    | none => scanCells limit rest

/-- Line 139: row.get('tableCells', []). -/
def scanRow (limit : Nat) : TableRow → Option String
  | TableRow.mk cells => scanCells limit (cells.getD [])

/-- The loop over a table's rows (line 138); an empty rows list is
equivalent to the 'if rows:' guard skipping the block. -/
def scanRows (limit : Nat) : List TableRow → Option String
  | [] => none
  | r :: rest =>
    match scanRow limit r with
    | some s => some s
    | none => scanRows limit rest

/-- The top-level element loop (lines 118-161).  A paragraph whose
elements key is absent makes line 122 evaluate len(None), raising a
TypeError: embedded as the .error outcome, which the enclosing
try/except of get_first_line turns into None.  table.get('tableRows', [])
defaults to []. -/
def walkContent (limit : Nat) : List ContentNode → Except Unit (Option String)
  | [] => Except.ok none
  | ContentNode.paragraph none :: _ => Except.error ()
  | ContentNode.paragraph (some es) :: rest =>
    match scanParaElems limit es with
    | some r => Except.ok (some r)
    | none => walkContent limit rest
  | ContentNode.table rows :: rest =>
    match scanRows limit (rows.getD []) with
    | some r => Except.ok (some r)
    | none => walkContent limit rest
  | ContentNode.sectionBreak :: rest => walkContent limit rest
  | ContentNode.other :: rest => walkContent limit rest

/-- get_first_line: the document fetch (documents().get plus the
body/content lookups) is passed in as an Except; any exception there, and
any exception inside the walk, is caught by the function's handlers and
becomes None (lines 164-169). -/
def get_first_line (limit : Nat) (fetch : Except Unit (List ContentNode)) :
    Option String :=
  match fetch with
  | Except.error _ => none
  | Except.ok content =>
    match walkContent limit content with
    | Except.error _ => none
    | Except.ok r => r

/-! Section: Flattened views of the tree, used to characterize the walk

nodesDeepRuns lists every TextRun content string in full depth-first
document order, recursing through nested tables, following §4.1 of the
spec word for word ("recursively scan each cell's content ... including
nested tables").  shallowTrace lists the strings the code actually visits,
in visit order, together with a flag marking that the top-level loop hit a
paragraph with an absent elements field (the TypeError point) before
exhausting the tree. -/

/-- textRun content carried by one paragraph element, if any. -/
def textRunString (pe : ParaElem) : Option String := pe.bind id

/-- All textRun content strings in a paragraph.elements list, in order. -/
def paraRuns (es : List ParaElem) : List String := es.filterMap textRunString

mutual
/-- Modelled from the spec (§4.1 traversal order): every TextRun string of
one node, depth-first, recursing into nested tables. -/
def nodeDeepRuns : ContentNode → List String
  | ContentNode.paragraph es => paraRuns (es.getD [])
  | ContentNode.table none => []
  | ContentNode.table (some rows) => rowsDeepRuns rows
  | ContentNode.sectionBreak => []
  | ContentNode.other => []

def rowsDeepRuns : List TableRow → List String
  | [] => []
  | r :: rs => rowDeepRuns r ++ rowsDeepRuns rs

def rowDeepRuns : TableRow → List String
  | TableRow.mk none => []
  | TableRow.mk (some cells) => cellsDeepRuns cells

def cellsDeepRuns : List TableCell → List String
  | [] => []
  | c :: cs => cellDeepRuns c ++ cellsDeepRuns cs

def cellDeepRuns : TableCell → List String
  | TableCell.mk none => []
  | TableCell.mk (some content) => nodesDeepRuns content

def nodesDeepRuns : List ContentNode → List String
  | [] => []
  | n :: ns => nodeDeepRuns n ++ nodesDeepRuns ns
end

/-- Modelled from the spec (§4.1): firstMeaningfulLine — the first line of
the first TextRun with non-whitespace content in full depth-first document
order, truncated to the limit. -/
def specFirstMeaningfulLine (limit : Nat) (nodes : List ContentNode) :
    Option String :=
  ((nodesDeepRuns nodes).find? nonBlank).map (firstLine limit)

/-- The strings a table contributes in the code's scan order: paragraphs
directly inside cells only. -/
def cellElemRuns : ContentNode → List String
  | ContentNode.paragraph es => paraRuns (es.getD [])
  | _ => []

def cellContentRuns : List ContentNode → List String
  | [] => []
  | e :: rest => cellElemRuns e ++ cellContentRuns rest

def cellRuns : TableCell → List String
  | TableCell.mk content => cellContentRuns (content.getD [])

def cellsRuns : List TableCell → List String
  | [] => []
  | c :: cs => cellRuns c ++ cellsRuns cs

def rowRuns : TableRow → List String
  | TableRow.mk cells => cellsRuns (cells.getD [])

def rowsRuns : List TableRow → List String
  | [] => []
  | r :: rs => rowRuns r ++ rowsRuns rs

def tableRuns (rows : Option (List TableRow)) : List String :=
  rowsRuns (rows.getD [])

/-- The strings the top-level loop visits, in order, cut off at the first
paragraph with an absent elements field; the flag records whether such a
paragraph was hit. -/
def shallowTrace : List ContentNode → List String × Bool
  | [] => ([], false)
  | ContentNode.paragraph none :: _ => ([], true)
  | ContentNode.paragraph (some es) :: rest =>
    let t := shallowTrace rest
    (paraRuns es ++ t.1, t.2)
  | ContentNode.table rows :: rest =>
    let t := shallowTrace rest
    (tableRuns rows ++ t.1, t.2)
  | ContentNode.sectionBreak :: rest => shallowTrace rest
  | ContentNode.other :: rest => shallowTrace rest

/-! Section: Title policy (gduntitlerename.py 105-108, 171-182; sortGD.py 130-134) -/

/-- is_untitled: re.match of the pattern Untitled(?: document)? anchored by
a caret and a dollar, under re.IGNORECASE.  Python re semantics: re.match
anchors at the start; without re.MULTILINE the dollar assertion holds at
the end of the string or just before a newline that is the last character;
re.IGNORECASE folds case.  The match is transcribed branch by branch:
consume one alternative of the (greedy, optional) group, then require the
dollar assertion on the remaining characters. -/
def matchDollar (rest : List Char) : Bool := rest == [] || rest == ['\n']

def is_untitled (title : String) : Bool :=
  let t := (pyLower title).data
  (t.take 17 == "untitled document".data && matchDollar (t.drop 17)) ||
  (t.take 8 == "untitled".data && matchDollar (t.drop 8))

/-- The filename-illegal character class of the re.sub at line 181. -/
def illegalChars : List Char := ['\\', '/', '*', '?', ':', '"', '<', '>', '|']

/-- re.sub removing every occurrence of the class. -/
def removeIllegal (s : String) : String :=
  ⟨s.data.filter (fun c => !illegalChars.contains c)⟩

/-- validate_title: Python returns False for a falsy input (embedded as
none) and otherwise the truncated, character-stripped string (possibly
empty).  max_length is the keyword parameter, 100 by default; every caller
in the script uses the default. -/
def validate_title (title : String) (max_length : Nat) :
    Option String :=
  if title = "" then none
  else
    let title := pyTake title max_length
    some (removeIllegal title)

/-- Python truthiness of the validate_title result as the caller tests it
at line 227 ('if validated_title:'): False and the empty string are both
falsy. -/
def titleUsable : Option String → Bool
  | none => false
  | some s => s != ""

/-- is_meaningful (sortGD.py 130-134): stripped length above 5 and not the
placeholder pattern.  Defined by the categorize script but never consulted
by its main loop. -/
def is_meaningful (title : String) : Bool :=
  decide ((pyStrip title).data.length > 5) && !(is_untitled title)

/-! Section: Rename-or-trash workflow (gduntitlerename.py main, lines 210-241) -/

/-- The terminal decision for one document. -/
inductive DocAction : Type where
  | rename (newTitle : String)
  | trash
  | skip
  deriving DecidableEq, Repr

/-- Lines 218-241: only placeholder titles are touched; the extraction
result drives an if chain in which get_first_line's None (covering every
exception it swallowed) and a falsy validated title both end in trash. -/
def processDoc (title : String) (fetch : Except Unit (List ContentNode)) :
    DocAction :=
  if is_untitled title then
    match get_first_line 100 fetch with
    | some first_line =>
      if first_line = "" then DocAction.trash
      else
        match validate_title first_line 100 with
        | some validated_title =>
          if validated_title = "" then DocAction.trash
          else DocAction.rename validated_title
        | none => DocAction.trash
    | none => DocAction.trash
  else DocAction.skip

/-- A mutation issued against the remote store (files().update with a
name, a trashed flag, or a reparent). -/
inductive Mutation : Type where
  | rename (docId newTitle : String)
  | trash (docId : String)
  | move (docId folderId : String)
  deriving DecidableEq, Repr

def mutationDocId : Mutation → String
  | Mutation.rename docId _ => docId
  | Mutation.trash docId => docId
  | Mutation.move docId _ => docId

/-- The mutations one pass of the loop body issues for one document. -/
def renameDocMutations (docId title : String)
    (fetch : Except Unit (List ContentNode)) : List Mutation :=
  match processDoc title fetch with
  | DocAction.rename t => [Mutation.rename docId t]
  | DocAction.trash => [Mutation.trash docId]
  | DocAction.skip => []

/-- One listed file record: the id and name fields requested from the
listing call. -/
structure DocFile : Type where
  id : String
  name : String
  deriving DecidableEq, Repr

/-- The whole rename-or-trash run over a listing, the per-document content
fetch result supplied by the store. -/
def runRename (docs : List DocFile)
    (fetch : String → Except Unit (List ContentNode)) : List Mutation :=
  docs.flatMap (fun d => renameDocMutations d.id d.name (fetch d.id))

/-! Section: Classifier adapter (sortGD.py 136-159) -/

/-- The configured category-to-folder-name table (sortGD.py 48-51). -/
def CATEGORIES : List (String × String) := [("Poetry", "Poetry")]

/-- categorize_document: the chat completion's text is supplied as an
Except (its .error covers every exception the handler catches — network,
quota, malformed response).  The stripped label is kept only when it is a
key of CATEGORIES; otherwise, and on any failure, the fallback label
results. -/
def categorize_document (title : String) (resp : Except Unit String) :
    String :=
  match resp with
  | Except.error _ => "Other"
  | Except.ok content =>
    let category := pyStrip content
    if (CATEGORIES.lookup category).isSome then category else "Other"

/-! Section: Folder resolver (sortGD.py 161-198) against a store model

The Drive folder store is embedded as the list of existing (id, name)
pairs in the store's listing order, plus a counter generating fresh ids;
files().create appends.  The always-succeeding in-memory store never
raises, so the except branches returning None are unreachable here. -/

structure DriveState : Type where
  folders : List (String × String)
  nextId : Nat
  deriving DecidableEq, Repr

/-- The files().list query of line 168: folders of exactly the given
name, first page of at most pageSize 10 ids. -/
def folderQuery (st : DriveState) (folder_name : String) : List String :=
  ((st.folders.filter (fun p => p.2 == folder_name)).map Prod.fst).take 10

/-- get_or_create_folder: reuse the first match, else create. -/
def get_or_create_folder (st : DriveState) (folder_name : String) :
    String × DriveState :=
  match folderQuery st folder_name with
  | folder_id :: _ => (folder_id, st)
  | [] =>
    let folder_id := "folder-" ++ toString st.nextId
    (folder_id,
     { folders := st.folders ++ [(folder_id, folder_name)],
       nextId := st.nextId + 1 })

/-! Section: Categorize-and-move workflow (sortGD.py main, lines 221-274) -/

/-- The observable per-document events of the loop body: the classifier
call (line 254), the single reparenting update issued by
move_document_to_folder, and the no-folder error log of line 269. -/
inductive SortEvent : Type where
  | classifyCall (title : String)
  | move (docId folderId : String)
  | logNoFolder (docId : String)
  deriving DecidableEq, Repr

def isMoveEvent : SortEvent → Bool
  | SortEvent.move _ _ => true
  | _ => false

/-- Line 259: folder_ids.get(category, folder_ids.get("Other")). -/
def foldersLookup (folder_ids : List (String × String))
    (category : String) : Option String :=
  match folder_ids.lookup category with
  | some folder_id => some folder_id
  | none => folder_ids.lookup "Other"

/-- Lines 252-269 for one document: classify unconditionally, then move to
the category's folder, defaulting to the fallback folder; with neither
resolved, log and leave the document unmoved.  (The 'if not category'
repair at 255-256 is kept even though categorize_document never returns a
falsy string.) -/
def sortDocEvents (folder_ids : List (String × String))
    (resp : Except Unit String) (docId title : String) : List SortEvent :=
  let category := categorize_document title resp
  let category := if category = "" then "Other" else category
  SortEvent.classifyCall title ::
    match foldersLookup folder_ids category with
    | some folder_id => [SortEvent.move docId folder_id]
    | none =>
      match folder_ids.lookup "Other" with
      | some other_folder_id => [SortEvent.move docId other_folder_id]
      | none => [SortEvent.logNoFolder docId]

/-- The whole categorize-and-move run over a listing, the per-document
classifier response supplied from outside. -/
def runSort (docs : List DocFile) (folder_ids : List (String × String))
    (resp : String → Except Unit String) : List SortEvent :=
  docs.flatMap (fun d => sortDocEvents folder_ids (resp d.id) d.id d.name)

/-! Section: Listing (both scripts, identical code) -/

def isErrorPage (page : Except Unit (List DocFile)) : Bool :=
  match page with
  | Except.error _ => true
  | Except.ok _ => false

/-- The pagination loop: pages is the sequence of responses the store
serves for successive page tokens (the last one carrying no
nextPageToken); any raised error abandons the accumulated docs and
returns the empty list. -/
def listPagesAux (acc : List DocFile) :
    List (Except Unit (List DocFile)) → List DocFile
  | [] => acc
  | Except.ok files :: rest => listPagesAux (acc ++ files) rest
  | Except.error _ :: _ => []

def list_google_docs (pages : List (Except Unit (List DocFile))) :
    List DocFile :=
  listPagesAux [] pages

/-- Matcher for mutations addressed to a given document. -/
def mutOf (qId : String) (m : Mutation) : Bool := mutationDocId m == qId

/-- Matcher for move events addressed to a given document. -/
def moveOf (qId : String) : SortEvent → Bool
  | SortEvent.move i _ => i == qId
  | _ => false

/-! Section: Concrete content trees used for scenarios and counterexamples -/

/-- A nested table whose single cell holds the paragraph "X". -/
def nestedTableX : ContentNode :=
  ContentNode.table (some [TableRow.mk (some [TableCell.mk (some
    [ContentNode.paragraph (some [some (some "X")])])])])

/-- A top-level table whose single cell holds, in order, the nested table
with "X" and then a paragraph with "Y": depth-first document order meets
"X" first, the code's cell scan meets only "Y". -/
def nestedCellTree : List ContentNode :=
  [ContentNode.table (some [TableRow.mk (some [TableCell.mk (some
    [nestedTableX, ContentNode.paragraph (some [some (some "Y")])])])])]

/-- A paragraph with an absent elements field, followed by a paragraph
containing "Hello". -/
def absentElemsTree : List ContentNode :=
  [ContentNode.paragraph none,
   ContentNode.paragraph (some [some (some "Hello")])]

/-- Scenario 1 content: first paragraph text "Meeting Notes 2024\nmore
text". -/
def meetingTree : List ContentNode :=
  [ContentNode.paragraph (some [some (some "Meeting Notes 2024\nmore text")])]

/-- Scenario 3 content: the only text lives inside a table cell. -/
def q3Tree : List ContentNode :=
  [ContentNode.table (some [TableRow.mk (some [TableCell.mk (some
    [ContentNode.paragraph (some [some (some "Q3 Report")])])])])]

/-! Section: Characterization of the content walk -/

/-- The scan of one textRun succeeds exactly on non-whitespace content. -/
theorem scanText_eq (limit : Nat) (s : String) :
    scanText limit s = if nonBlank s then some (firstLine limit s) else none := by
  unfold scanText nonBlank firstLine
  by_cases h : pyStrip s = ""
  · simp [h]
  · simp only [h, if_neg h, bne_iff_ne, ne_eq, not_false_eq_true, if_pos]
    rfl

/-- The paragraph-elements loop returns the first line of the first
non-whitespace textRun of the paragraph. -/
theorem scanParaElems_eq (limit : Nat) (es : List ParaElem) :
    scanParaElems limit es =
      ((paraRuns es).find? nonBlank).map (firstLine limit) := by
  induction es with
  | nil => rfl
  | cons pe rest ih =>
    cases pe with
    | none =>
      simpa [scanParaElems, scanTextRun, paraRuns, textRunString,
        List.filterMap_cons] using ih
    | some o =>
      cases o with
      | none =>
        simpa [scanParaElems, scanTextRun, paraRuns, textRunString,
          List.filterMap_cons] using ih
      | some s =>
        have hruns : paraRuns (some (some s) :: rest) = s :: paraRuns rest := by
          simp [paraRuns, textRunString]
        simp only [scanParaElems, scanTextRun, hruns]
        rw [scanText_eq]
        by_cases h : nonBlank s
        · rw [if_pos h, List.find?_cons_of_pos _ h]
          rfl
        · rw [if_neg h, List.find?_cons_of_neg _ h]
          exact ih

theorem scanCellElem_eq (limit : Nat) (e : ContentNode) :
    scanCellElem limit e =
      ((cellElemRuns e).find? nonBlank).map (firstLine limit) := by
  cases e with
  | paragraph es => simpa [scanCellElem, cellElemRuns] using
      scanParaElems_eq limit (es.getD [])
  | table rows => rfl
  | sectionBreak => rfl
  | other => rfl

theorem scanCellContent_eq (limit : Nat) (l : List ContentNode) :
    scanCellContent limit l =
      ((cellContentRuns l).find? nonBlank).map (firstLine limit) := by
  induction l with
  | nil => rfl
  | cons e rest ih =>
    simp only [scanCellContent, cellContentRuns, List.find?_append,
      Option.map_or', scanCellElem_eq, ih]
    cases (cellElemRuns e).find? nonBlank <;> simp

theorem scanCell_eq (limit : Nat) (c : TableCell) :
    scanCell limit c = ((cellRuns c).find? nonBlank).map (firstLine limit) := by
  cases c with
  | mk content => simpa [scanCell, cellRuns] using
      scanCellContent_eq limit (content.getD [])

theorem scanCells_eq (limit : Nat) (cs : List TableCell) :
    scanCells limit cs =
      ((cellsRuns cs).find? nonBlank).map (firstLine limit) := by
  induction cs with
  | nil => rfl
  | cons c rest ih =>
    simp only [scanCells, cellsRuns, List.find?_append, Option.map_or',
      scanCell_eq, ih]
    cases (cellRuns c).find? nonBlank <;> simp

theorem scanRow_eq (limit : Nat) (r : TableRow) :
    scanRow limit r = ((rowRuns r).find? nonBlank).map (firstLine limit) := by
  cases r with
  | mk cells => simpa [scanRow, rowRuns] using
      scanCells_eq limit (cells.getD [])

theorem scanRows_eq (limit : Nat) (rs : List TableRow) :
    scanRows limit rs =
      ((rowsRuns rs).find? nonBlank).map (firstLine limit) := by
  induction rs with
  | nil => rfl
  | cons r rest ih =>
    simp only [scanRows, rowsRuns, List.find?_append, Option.map_or',
      scanRow_eq, ih]
    cases (rowRuns r).find? nonBlank <;> simp

/-- A table element behaves as the scan of its (defaulted) rows. -/
theorem scanTable_eq (limit : Nat) (rows : Option (List TableRow)) :
    scanRows limit (rows.getD []) =
      ((tableRuns rows).find? nonBlank).map (firstLine limit) := by
  simpa [tableRuns] using scanRows_eq limit (rows.getD [])

/-- The top-level walk, characterized by the visit-order trace: the first
non-whitespace string visited wins; with none, the walk raises exactly
when it ran into a paragraph with an absent elements field. -/
theorem walkContent_eq (limit : Nat) (nodes : List ContentNode) :
    walkContent limit nodes =
      match (shallowTrace nodes).1.find? nonBlank with
      | some s => Except.ok (some (firstLine limit s))
      | none =>
        if (shallowTrace nodes).2 then Except.error () else Except.ok none := by
  induction nodes with
  | nil => rfl
  | cons n rest ih =>
    cases n with
    | paragraph es =>
      cases es with
      | none => rfl
      | some es' =>
        simp only [walkContent, shallowTrace, scanParaElems_eq,
          List.find?_append]
        cases hfind : (paraRuns es').find? nonBlank with
        | some s => simp
        | none => simpa using ih
    | table rows =>
      simp only [walkContent, shallowTrace, scanTable_eq, List.find?_append]
      cases hfind : (tableRuns rows).find? nonBlank with
      | some s => simp
      | none => simpa using ih
    | sectionBreak => simpa [walkContent, shallowTrace] using ih
    | other => simpa [walkContent, shallowTrace] using ih

/-- get_first_line on a successful fetch: the first line of the first
non-whitespace string in the code's visit order, the raising case
collapsed into none by the exception handler. -/
theorem get_first_line_ok (limit : Nat) (nodes : List ContentNode) :
    get_first_line limit (Except.ok nodes) =
      ((shallowTrace nodes).1.find? nonBlank).map (firstLine limit) := by
  rw [show get_first_line limit (Except.ok nodes) =
        (match walkContent limit nodes with
         | Except.error _ => none
         | Except.ok r => r) from rfl]
  rw [walkContent_eq]
  cases hfind : (shallowTrace nodes).1.find? nonBlank with
  | some s => simp
  | none => cases h2 : (shallowTrace nodes).2 <;> simp

/-! Section: Claim theorems -/

/-- C1, counterexample.  The claim says a returned candidate equals the
first non-whitespace TextRun in full depth-first order, nested tables
included.  In nestedCellTree the depth-first-first TextRun is "X" (inside
a table nested in a cell), but the walk returns "Y": the cell scan skips
nested tables. -/
theorem claim1_counterexample :
    get_first_line 100 (Except.ok nestedCellTree) = some "Y" ∧
    specFirstMeaningfulLine 100 nestedCellTree = some "X" ∧
    specFirstMeaningfulLine 100 nestedCellTree ≠
      get_first_line 100 (Except.ok nestedCellTree) :=
  ⟨by decide, by decide, by decide⟩

/-- C1 (amended): when the walk of get_first_line returns a candidate, it
equals the first line, truncated to the limit, of the first TextRun with
non-whitespace content in the code's visit order — top-level paragraphs
and paragraphs lying directly in cells of top-level tables; tables nested
inside table cells are not scanned. -/
theorem claim1_first_line_characterization (limit : Nat)
    (nodes : List ContentNode) (c : String)
    (h : get_first_line limit (Except.ok nodes) = some c) :
    ((shallowTrace nodes).1.find? nonBlank).map (firstLine limit) = some c := by
  rw [← get_first_line_ok]
  exact h

/-- C1 witness: scenario 3, the only text inside a table cell. -/
theorem claim1_first_line_characterization_witness :
    ((shallowTrace q3Tree).1.find? nonBlank).map (firstLine 100) =
      some "Q3 Report" :=
  claim1_first_line_characterization 100 q3Tree "Q3 Report" (by decide)

/-- C2, counterexample.  The claim says None is returned exactly when no
TextRun anywhere holds non-whitespace content, and that a paragraph with
an absent elements field is walked as empty with later siblings still
scanned.  In absentElemsTree the TextRun "Hello" follows such a
paragraph, yet the walk returns None: line 122 evaluates len(None), the
TypeError is caught, and the rest of the tree is never visited. -/
theorem claim2_counterexample :
    get_first_line 100 (Except.ok absentElemsTree) = none ∧
    "Hello" ∈ nodesDeepRuns absentElemsTree ∧ pyStrip "Hello" ≠ "" :=
  ⟨by decide, by decide, by decide⟩

/-- C2 (amended): get_first_line yields None exactly when no string in
the code's visit order — cut off at the first top-level paragraph with an
absent elements field, whose internal TypeError ends the walk — has
non-whitespace content; absent table rows, cells, cell content and
cell-paragraph elements are treated as empty sequences. -/
theorem claim2_none_characterization (limit : Nat) (nodes : List ContentNode) :
    (get_first_line limit (Except.ok nodes) = none ↔
      ∀ s ∈ (shallowTrace nodes).1, pyStrip s = "") ∧
    (∀ rest, walkContent limit (ContentNode.table none :: rest) =
      walkContent limit (ContentNode.table (some []) :: rest)) ∧
    scanRow limit (TableRow.mk none) = scanRow limit (TableRow.mk (some [])) ∧
    scanCell limit (TableCell.mk none) = scanCell limit (TableCell.mk (some [])) ∧
    scanCellElem limit (ContentNode.paragraph none) =
      scanCellElem limit (ContentNode.paragraph (some [])) := by
  refine ⟨?_, fun rest => rfl, rfl, rfl, rfl⟩
  rw [get_first_line_ok]
  simp [Option.map_eq_none', List.find?_eq_none, nonBlank]

/-- C2 witness: the amended characterization applied to absentElemsTree,
whose visit-order trace is empty. -/
theorem claim2_none_characterization_witness :
    get_first_line 100 (Except.ok absentElemsTree) = none :=
  (claim2_none_characterization 100 absentElemsTree).1.mpr (by decide)

/-- One regex alternative: the match consumed the pattern p and the dollar
assertion held on what remains. -/
theorem take_dollar_iff (l p : List Char) (n : Nat) (hn : p.length = n) :
    ((l.take n == p && matchDollar (l.drop n)) = true) ↔
      (l = p ∨ l = p ++ ['\n']) := by
  constructor
  · intro h
    simp only [Bool.and_eq_true, beq_iff_eq, matchDollar, Bool.or_eq_true] at h
    obtain ⟨h1, h2⟩ := h
    have hl := (List.take_append_drop n l).symm
    rcases h2 with h2 | h2
    · left
      rw [hl, h1, h2, List.append_nil]
    · right
      rw [hl, h1, h2]
  · rintro (rfl | rfl)
    · subst hn
      simp [matchDollar]
    · subst hn
      simp [List.take_left, List.drop_left, matchDollar]

/-- C8, counterexample.  Python's dollar anchor also matches just before a
final newline, so the title "Untitled" followed by one newline is accepted
by is_untitled although it is not, case-insensitively, exactly "Untitled"
or "Untitled document". -/
theorem claim8_counterexample :
    is_untitled "Untitled\n" = true ∧
    pyLower "Untitled\n" ≠ "untitled" ∧
    pyLower "Untitled\n" ≠ "untitled document" :=
  ⟨by decide, by decide, by decide⟩

/-- C8 (amended): is_untitled accepts exactly the titles that,
case-insensitively, equal "Untitled" or "Untitled document" optionally
followed by one trailing newline (the newline case added by the semantics
of the dollar anchor in Python re). -/
theorem claim8_placeholder_characterization (title : String) :
    is_untitled title = true ↔
      pyLower title = "untitled" ∨ pyLower title = "untitled document" ∨
      pyLower title = "untitled\n" ∨ pyLower title = "untitled document\n" := by
  simp only [is_untitled, Bool.or_eq_true]
  rw [take_dollar_iff _ _ 17 (by decide), take_dollar_iff _ _ 8 (by decide)]
  have h1 : "untitled document".data ++ ['\n'] = "untitled document\n".data := by
    decide
  have h2 : "untitled".data ++ ['\n'] = "untitled\n".data := by decide
  rw [h1, h2]
  simp only [String.ext_iff]
  tauto

/-- C8 witness: the characterization applied at "UNTITLED". -/
theorem claim8_placeholder_characterization_witness :
    is_untitled "UNTITLED" = true :=
  (claim8_placeholder_characterization "UNTITLED").mpr (Or.inl (by decide))

/-- C9: validate_title removes every occurrence of each filename-illegal
character; a non-empty candidate of only illegal characters sanitizes to a
falsy (invalid) result, and an empty candidate is rejected outright
(Python returns False, embedded as none). -/
theorem claim9_sanitize (title : String) :
    (∀ v, validate_title title 100 = some v → ∀ c ∈ v.data, c ∉ illegalChars) ∧
    (title ≠ "" → (∀ c ∈ title.data, c ∈ illegalChars) →
      titleUsable (validate_title title 100) = false) ∧
    titleUsable (validate_title "" 100) = false := by
  refine ⟨?_, ?_, rfl⟩
  · intro v hv c hc
    by_cases ht : title = ""
    · simp [validate_title, ht] at hv
    · simp only [validate_title, if_neg ht, Option.some.injEq] at hv
      subst hv
      simp only [removeIllegal] at hc
      have := (List.mem_filter.mp hc).2
      simpa using this
  · intro ht hall
    simp only [validate_title, if_neg ht]
    have hnil : (pyTake title 100).data.filter
        (fun c => !illegalChars.contains c) = [] := by
      rw [List.filter_eq_nil_iff]
      intro c hc
      have hmem : c ∈ title.data := List.mem_of_mem_take (by simpa [pyTake] using hc)
      simp [hall c hmem]
    have hz : removeIllegal (pyTake title 100) = "" := by
      simp only [removeIllegal]
      rw [hnil]
    simp [titleUsable, hz]

/-- C9 witness: a candidate made of all nine illegal characters is
rejected, as is the empty candidate. -/
theorem claim9_sanitize_witness :
    titleUsable (validate_title "\\/*?:\"<>|" 100) = false ∧
    titleUsable (validate_title "" 100) = false :=
  ⟨(claim9_sanitize "\\/*?:\"<>|").2.1 (by decide) (by decide),
   (claim9_sanitize "x").2.2⟩

/-- C3: the per-document decision of the rename-or-trash workflow.  A
non-placeholder title is skipped; with a placeholder title, a missing
candidate (None — covering exceptions swallowed by get_first_line) is
trashed, a candidate whose sanitization is falsy is trashed, and a
candidate sanitizing to a usable string is renamed to it. -/
theorem claim3_rename_or_trash (title : String)
    (fetch : Except Unit (List ContentNode)) :
    (is_untitled title = false → processDoc title fetch = DocAction.skip) ∧
    (is_untitled title = true →
      (get_first_line 100 fetch = none →
        processDoc title fetch = DocAction.trash) ∧
      (∀ c, get_first_line 100 fetch = some c →
        (titleUsable (validate_title c 100) = false →
          processDoc title fetch = DocAction.trash) ∧
        (∀ v, validate_title c 100 = some v → v ≠ "" →
          processDoc title fetch = DocAction.rename v))) := by
  refine ⟨fun h => by simp [processDoc, h], fun h => ⟨fun hn => by
    simp [processDoc, h, hn], fun c hc => ⟨?_, ?_⟩⟩⟩
  · intro hnou
    by_cases hce : c = ""
    · simp [processDoc, h, hc, hce]
    · have hv : validate_title c 100 = some (removeIllegal (pyTake c 100)) := by
        simp [validate_title, hce]
      have hvz : removeIllegal (pyTake c 100) = "" := by
        rw [hv] at hnou
        simpa [titleUsable] using hnou
      simp [processDoc, h, hc, hce, hv, hvz]
  · intro v hv hvne
    have hce : c ≠ "" := by
      intro hceq
      rw [hceq] at hv
      simp [validate_title] at hv
    simp [processDoc, h, hc, hce, hv, hvne]

/-- C3 witness: scenario 1 — "Untitled document" with first paragraph
text "Meeting Notes 2024\nmore text" is renamed to "Meeting Notes 2024". -/
theorem claim3_rename_or_trash_witness :
    processDoc "Untitled document" (Except.ok meetingTree) =
      DocAction.rename "Meeting Notes 2024" :=
  (((claim3_rename_or_trash "Untitled document"
      (Except.ok meetingTree)).2 (by decide)).2
    "Meeting Notes 2024" (by decide)).2 "Meeting Notes 2024" (by decide)
    (by decide)

/-- The classifier result is the fallback label or a configured key. -/
theorem categorize_document_mem (title : String) (resp : Except Unit String) :
    categorize_document title resp = "Other" ∨
      categorize_document title resp = "Poetry" := by
  unfold categorize_document
  cases resp with
  | error e => exact Or.inl rfl
  | ok content =>
    cases hbeq : (pyStrip content == "Poetry") with
    | true =>
      have heq : pyStrip content = "Poetry" := by simpa using hbeq
      simp [CATEGORIES, List.lookup, hbeq, heq]
    | false =>
      simp [CATEGORIES, List.lookup, hbeq]

theorem categorize_document_ne_empty (title : String)
    (resp : Except Unit String) : categorize_document title resp ≠ "" := by
  rcases categorize_document_mem title resp with h | h <;> rw [h] <;> decide

/-- C5: for every title and every classifier outcome — success with any
label, or failure — categorize_document returns a configured category or
the reserved fallback label; being a total Lean function over the Except
input, it raises nothing to its caller. -/
theorem claim5_classifier (title : String) (resp : Except Unit String) :
    categorize_document title resp ∈ "Other" :: CATEGORIES.map Prod.fst := by
  rcases categorize_document_mem title resp with h | h <;> simp [CATEGORIES, h]

/-- C6: resolving the same folder name twice in a run returns the same id
and creates nothing the second time (the store is left untouched); one
resolution adds at most one folder to the store. -/
theorem claim6_resolver (st : DriveState) (folder_name : String) :
    (get_or_create_folder (get_or_create_folder st folder_name).2
        folder_name).1 = (get_or_create_folder st folder_name).1 ∧
    (get_or_create_folder (get_or_create_folder st folder_name).2
        folder_name).2 = (get_or_create_folder st folder_name).2 ∧
    (get_or_create_folder st folder_name).2.folders.length ≤
      st.folders.length + 1 := by
  cases hq : folderQuery st folder_name with
  | cons fid rest =>
    have h1 : get_or_create_folder st folder_name = (fid, st) := by
      unfold get_or_create_folder
      rw [hq]
    rw [h1]
    exact ⟨by rw [h1], by rw [h1], Nat.le_succ _⟩
  | nil =>
    have hfilter : st.folders.filter (fun p => p.2 == folder_name) = [] := by
      unfold folderQuery at hq
      rcases List.take_eq_nil_iff.mp hq with h | h
      · exact absurd h (by decide)
      · exact List.map_eq_nil_iff.mp h
    have h1 : get_or_create_folder st folder_name =
        ("folder-" ++ toString st.nextId,
         { folders :=
             st.folders ++ [("folder-" ++ toString st.nextId, folder_name)],
           nextId := st.nextId + 1 }) := by
      unfold get_or_create_folder
      rw [hq]
    have hq2 : folderQuery
        { folders :=
            st.folders ++ [("folder-" ++ toString st.nextId, folder_name)],
          nextId := st.nextId + 1 } folder_name =
        ["folder-" ++ toString st.nextId] := by
      unfold folderQuery
      simp [List.filter_append, hfilter]
    have h2 : get_or_create_folder
        { folders :=
            st.folders ++ [("folder-" ++ toString st.nextId, folder_name)],
          nextId := st.nextId + 1 } folder_name =
        ("folder-" ++ toString st.nextId,
         { folders :=
             st.folders ++ [("folder-" ++ toString st.nextId, folder_name)],
           nextId := st.nextId + 1 }) := by
      unfold get_or_create_folder
      rw [hq2]
    rw [h1]
    exact ⟨by rw [h2], by rw [h2], by simp⟩

/-- The loop body of the categorize workflow, with the dead
empty-category repair eliminated. -/
theorem sortDocEvents_eq (folder_ids : List (String × String))
    (resp : Except Unit String) (docId title : String) :
    sortDocEvents folder_ids resp docId title =
      SortEvent.classifyCall title ::
        (match foldersLookup folder_ids (categorize_document title resp) with
         | some folder_id => [SortEvent.move docId folder_id]
         | none =>
           match folder_ids.lookup "Other" with
           | some other_folder_id => [SortEvent.move docId other_folder_id]
           | none => [SortEvent.logNoFolder docId]) := by
  simp only [sortDocEvents]
  rw [if_neg (categorize_document_ne_empty title resp)]

/-- C7: the classifier is consulted for every document — in particular
for every title the is_meaningful predicate rejects — and a category with
no resolved folder falls back to the fallback category's folder; with the
fallback folder also unresolved, no move is issued and the condition is
logged. -/
theorem claim7_classify_and_fallback (folder_ids : List (String × String))
    (resp : Except Unit String) (docId title : String) :
    SortEvent.classifyCall title ∈ sortDocEvents folder_ids resp docId title ∧
    (is_meaningful title = false →
      SortEvent.classifyCall title ∈
        sortDocEvents folder_ids resp docId title) ∧
    (∀ other_id, folder_ids.lookup (categorize_document title resp) = none →
      folder_ids.lookup "Other" = some other_id →
      sortDocEvents folder_ids resp docId title =
        [SortEvent.classifyCall title, SortEvent.move docId other_id]) ∧
    (folder_ids.lookup (categorize_document title resp) = none →
      folder_ids.lookup "Other" = none →
      sortDocEvents folder_ids resp docId title =
        [SortEvent.classifyCall title, SortEvent.logNoFolder docId]) := by
  refine ⟨?_, fun _ => ?_, ?_, ?_⟩
  · rw [sortDocEvents_eq]
    exact List.mem_cons_self _ _
  · rw [sortDocEvents_eq]
    exact List.mem_cons_self _ _
  · intro other_id h1 h2
    rw [sortDocEvents_eq]
    simp [foldersLookup, h1, h2]
  · intro h1 h2
    rw [sortDocEvents_eq]
    simp [foldersLookup, h1, h2]

/-- C7 witness: scenario 4 — "Budget Draft" (a meaningful,
non-placeholder title) is still classified; its category has no resolved
folder, so it moves to the fallback category's folder. -/
theorem claim7_classify_and_fallback_witness :
    sortDocEvents [("Other", "folder-other")] (Except.ok "Poetry")
        "doc1" "Budget Draft" =
      [SortEvent.classifyCall "Budget Draft",
       SortEvent.move "doc1" "folder-other"] :=
  (claim7_classify_and_fallback [("Other", "folder-other")]
      (Except.ok "Poetry") "doc1" "Budget Draft").2.2.1 "folder-other"
    (by decide) (by decide)

/-! Section: Single-mutation invariant lemmas (C4) -/

theorem renameDocMutations_docId (docId title : String)
    (fetch : Except Unit (List ContentNode)) :
    ∀ m ∈ renameDocMutations docId title fetch, mutationDocId m = docId := by
  intro m hm
  unfold renameDocMutations at hm
  cases hpd : processDoc title fetch <;> rw [hpd] at hm
  · simp only [List.mem_singleton] at hm
    subst hm
    rfl
  · simp only [List.mem_singleton] at hm
    subst hm
    rfl
  · simp at hm

theorem renameDocMutations_length (docId title : String)
    (fetch : Except Unit (List ContentNode)) :
    (renameDocMutations docId title fetch).length ≤ 1 := by
  unfold renameDocMutations
  cases processDoc title fetch <;> simp

theorem renameDocMutations_nil_iff (docId title : String)
    (fetch : Except Unit (List ContentNode)) :
    (renameDocMutations docId title fetch = []) ↔
      is_untitled title = false := by
  unfold renameDocMutations processDoc
  by_cases hu : is_untitled title
  · rw [if_pos hu]
    constructor
    · intro h
      exfalso
      cases hg : get_first_line 100 fetch with
      | none => rw [hg] at h; simp at h
      | some fl =>
        rw [hg] at h
        by_cases hfl : fl = ""
        · simp [hfl] at h
        · cases hv : validate_title fl 100 with
          | none => simp [hfl, hv] at h
          | some v => by_cases hve : v = "" <;> simp [hfl, hv, hve] at h
    · intro h
      rw [h] at hu
      simp at hu
  · simp [hu]

theorem runRename_filter_nil (docs : List DocFile)
    (fetch : String → Except Unit (List ContentNode)) (qId : String)
    (h : qId ∉ docs.map DocFile.id) :
    (runRename docs fetch).filter (mutOf qId) = [] := by
  induction docs with
  | nil => rfl
  | cons d ds ih =>
    have hne : d.id ≠ qId := fun he => h (by simp [← he])
    have hq : qId ∉ ds.map DocFile.id := fun hm => h (by simp [hm])
    simp only [runRename, List.flatMap_cons, List.filter_append]
    rw [List.filter_eq_nil_iff.mpr
        (fun m hm => by
          simp [mutOf, renameDocMutations_docId d.id d.name (fetch d.id) m hm,
            hne])]
    simpa [runRename] using ih hq

theorem runRename_filter_length (docs : List DocFile)
    (fetch : String → Except Unit (List ContentNode)) (qId : String)
    (h : (docs.map DocFile.id).Nodup) :
    ((runRename docs fetch).filter (mutOf qId)).length ≤ 1 := by
  induction docs with
  | nil => simp [runRename]
  | cons d ds ih =>
    rw [List.map_cons, List.nodup_cons] at h
    obtain ⟨hni, hnd⟩ := h
    simp only [runRename, List.flatMap_cons, List.filter_append,
      List.length_append]
    by_cases hdi : d.id = qId
    · subst hdi
      have htail : (runRename ds fetch).filter (mutOf d.id) = [] :=
        runRename_filter_nil ds fetch d.id hni
      simp only [runRename] at htail
      rw [htail]
      simpa using le_trans (List.length_filter_le _ _)
        (renameDocMutations_length d.id d.name (fetch d.id))
    · rw [List.filter_eq_nil_iff.mpr
          (fun m hm => by
            simp [mutOf,
              renameDocMutations_docId d.id d.name (fetch d.id) m hm, hdi])]
      simpa [runRename] using ih hnd

/-- Every pass of the categorize loop emits the classify call followed by
exactly one terminal event: a single move, or the no-folder error log. -/
theorem sortDocEvents_shape (folder_ids : List (String × String))
    (resp : Except Unit String) (docId title : String) :
    (∃ fid, sortDocEvents folder_ids resp docId title =
      [SortEvent.classifyCall title, SortEvent.move docId fid]) ∨
    sortDocEvents folder_ids resp docId title =
      [SortEvent.classifyCall title, SortEvent.logNoFolder docId] := by
  rw [sortDocEvents_eq]
  cases h1 : foldersLookup folder_ids (categorize_document title resp) with
  | some fid => exact Or.inl ⟨fid, rfl⟩
  | none =>
    cases h2 : folder_ids.lookup "Other" with
    | some ofid => exact Or.inl ⟨ofid, rfl⟩
    | none => exact Or.inr rfl

theorem sortDocEvents_moves_length (folder_ids : List (String × String))
    (resp : Except Unit String) (docId title qId : String) :
    ((sortDocEvents folder_ids resp docId title).filter (moveOf qId)).length ≤
      1 := by
  rcases sortDocEvents_shape folder_ids resp docId title with ⟨fid, heq⟩ | heq <;>
    rw [heq]
  · cases hq : (docId == qId) <;> simp [moveOf, hq]
  · simp [moveOf]

theorem sortDocEvents_moves_nil (folder_ids : List (String × String))
    (resp : Except Unit String) (docId title qId : String)
    (h : docId ≠ qId) :
    (sortDocEvents folder_ids resp docId title).filter (moveOf qId) = [] := by
  rcases sortDocEvents_shape folder_ids resp docId title with ⟨fid, heq⟩ | heq <;>
    rw [heq] <;> simp [moveOf, h]

theorem runSort_filter_nil (docs : List DocFile)
    (folder_ids : List (String × String))
    (resp : String → Except Unit String) (qId : String)
    (h : qId ∉ docs.map DocFile.id) :
    (runSort docs folder_ids resp).filter (moveOf qId) = [] := by
  induction docs with
  | nil => rfl
  | cons d ds ih =>
    have hne : d.id ≠ qId := fun he => h (by simp [← he])
    have hq : qId ∉ ds.map DocFile.id := fun hm => h (by simp [hm])
    simp only [runSort, List.flatMap_cons, List.filter_append]
    rw [sortDocEvents_moves_nil folder_ids (resp d.id) d.id d.name qId hne]
    simpa [runSort] using ih hq

theorem runSort_filter_length (docs : List DocFile)
    (folder_ids : List (String × String))
    (resp : String → Except Unit String) (qId : String)
    (h : (docs.map DocFile.id).Nodup) :
    ((runSort docs folder_ids resp).filter (moveOf qId)).length ≤ 1 := by
  induction docs with
  | nil => simp [runSort]
  | cons d ds ih =>
    rw [List.map_cons, List.nodup_cons] at h
    obtain ⟨hni, hnd⟩ := h
    simp only [runSort, List.flatMap_cons, List.filter_append,
      List.length_append]
    by_cases hdi : d.id = qId
    · subst hdi
      have htail : (runSort ds folder_ids resp).filter (moveOf d.id) = [] :=
        runSort_filter_nil ds folder_ids resp d.id hni
      simp only [runSort] at htail
      rw [htail]
      simpa using sortDocEvents_moves_length folder_ids (resp d.id) d.id
        d.name d.id
    · rw [sortDocEvents_moves_nil folder_ids (resp d.id) d.id d.name qId hdi]
      simpa [runSort] using ih hnd

/-- C4: in one run of either workflow, any given document id receives at
most one mutation; per document, the rename workflow issues at most one
mutation and issues none exactly when the title is not a placeholder, and
the categorize workflow issues at most one move. -/
theorem claim4_single_terminal_action (docs : List DocFile)
    (fetch : String → Except Unit (List ContentNode))
    (folder_ids : List (String × String))
    (resp : String → Except Unit String)
    (h : (docs.map DocFile.id).Nodup) (qId : String) :
    ((runRename docs fetch).filter (mutOf qId)).length ≤ 1 ∧
    ((runSort docs folder_ids resp).filter (moveOf qId)).length ≤ 1 ∧
    (∀ d ∈ docs,
      (renameDocMutations d.id d.name (fetch d.id)).length ≤ 1 ∧
      ((renameDocMutations d.id d.name (fetch d.id) = []) ↔
        is_untitled d.name = false) ∧
      ((sortDocEvents folder_ids (resp d.id) d.id d.name).filter
        (moveOf d.id)).length ≤ 1) :=
  ⟨runRename_filter_length docs fetch qId h,
   runSort_filter_length docs folder_ids resp qId h,
   fun d _ =>
     ⟨renameDocMutations_length d.id d.name (fetch d.id),
      renameDocMutations_nil_iff d.id d.name (fetch d.id),
      sortDocEvents_moves_length folder_ids (resp d.id) d.id d.name d.id⟩⟩

/-- C4 witness: a two-document run of each workflow. -/
theorem claim4_single_terminal_action_witness :
    ((runRename [⟨"d1", "Untitled"⟩, ⟨"d2", "Budget Draft"⟩]
        (fun _ => Except.ok meetingTree)).filter (mutOf "d1")).length ≤ 1 ∧
    ((runSort [⟨"d1", "Untitled"⟩, ⟨"d2", "Budget Draft"⟩]
        [("Other", "folder-other")]
        (fun _ => Except.error ())).filter (moveOf "d1")).length ≤ 1 :=
  ⟨(claim4_single_terminal_action
      [⟨"d1", "Untitled"⟩, ⟨"d2", "Budget Draft"⟩]
      (fun _ => Except.ok meetingTree) [("Other", "folder-other")]
      (fun _ => Except.error ()) (by decide) "d1").1,
   (claim4_single_terminal_action
      [⟨"d1", "Untitled"⟩, ⟨"d2", "Budget Draft"⟩]
      (fun _ => Except.ok meetingTree) [("Other", "folder-other")]
      (fun _ => Except.error ()) (by decide) "d1").2.1⟩

/-- An error on any page empties the whole listing, whatever was already
accumulated. -/
theorem listPagesAux_error :
    ∀ (pages : List (Except Unit (List DocFile))) (acc : List DocFile),
      pages.any isErrorPage = true → listPagesAux acc pages = []
  | [], _, h => by simp at h
  | Except.error _ :: _, _, _ => rfl
  | Except.ok files :: rest, acc, h => by
    have h' : rest.any isErrorPage = true := by
      simpa [isErrorPage] using h
    exact listPagesAux_error rest (acc ++ files) h'

/-- C10: a failed page request anywhere during listing makes
list_google_docs return the empty list — earlier pages are discarded —
and both workflows then perform no mutation at all. -/
theorem claim10_listing_failure (pages : List (Except Unit (List DocFile)))
    (h : pages.any isErrorPage = true) :
    list_google_docs pages = [] ∧
    (∀ fetch, runRename (list_google_docs pages) fetch = []) ∧
    (∀ folder_ids resp, runSort (list_google_docs pages) folder_ids resp =
      []) := by
  have h0 : list_google_docs pages = [] := listPagesAux_error pages [] h
  exact ⟨h0, fun fetch => by rw [h0]; rfl, fun fi resp => by rw [h0]; rfl⟩

/-- C10 witness: one successful page followed by a failing one. -/
theorem claim10_listing_failure_witness :
    list_google_docs [Except.ok [⟨"d1", "Untitled"⟩], Except.error ()] = [] :=
  (claim10_listing_failure
    [Except.ok [⟨"d1", "Untitled"⟩], Except.error ()] (by decide)).1
